import Mathlib

/-! # rat: event dispatch, quit signal, pager stack, command executor, script loading, layout

A shallow embedding of `lib/rat.go`.  The package keeps its state in package-level
variables; each function below receives the variables it reads and returns the ones it
writes.  Calls that leave `rat.go` (the Prompt, the widget stack, the handler registry,
termbox, the operating system, the script VM) are fields of an explicit record
of collaborators, and every such call is written to an effect trace so that
"is called", "is not consulted" and "exactly once" are statements about that trace.
-/

set_option autoImplicit false

namespace RatLib

/-! ## The quit signal and the pager stack (`Quit`, `PopPager`) -/

/-- The `done` channel.  Nothing is ever sent on it; the only operation `rat.go` performs
on it is `close`, so its state is whether it has been closed. -/
inductive Chan where
  | isOpen
  | isClosed
  deriving DecidableEq, Repr

/-- Run-time panics that the modelled code can raise. -/
inductive Panic where
  /-- Go: `panic: close of closed channel`. -/
  | closeOfClosedChannel
  /-- The error returned by `vm.Run`, re-raised by `evalJavascript`. -/
  | scriptError
  deriving DecidableEq, Repr

/-- Modelled from the spec: the `PagerStack` type and its `Push`, `Pop` and `Size` methods
are declared outside `rat.go`.  "Push appends to the top; pop removes the top and is a
no-op if already empty."  The stack is the list of its pagers, bottom first, top last. -/
structure PagerStack (PG : Type) where
  pagers : List PG
  deriving DecidableEq, Repr

/-- Modelled from the spec: `Pop` removes the top and is a no-op on the empty stack. -/
def PagerStack.Pop {PG : Type} (s : PagerStack PG) : PagerStack PG :=
  ⟨s.pagers.dropLast⟩

/-- Modelled from the spec: `Size` is the number of pagers held. -/
def PagerStack.Size {PG : Type} (s : PagerStack PG) : Nat :=
  s.pagers.length

/-- The package variables read or written by `Quit` and `PopPager`. -/
structure QuitState (PG : Type) where
  done : Chan
  pagers : PagerStack PG
  deriving DecidableEq, Repr

/-- What a call did: the package state it left behind, the panic it raised (if any), and
how many times it executed `close(done)`.  The state is kept in the panic case too: it is
the state at the moment the panic is raised. -/
structure Outcome (PG : Type) where
  state : QuitState PG
  panicked : Option Panic
  closes : Nat
  deriving DecidableEq, Repr

/-- Go's `close(ch)`: closes an open channel, panics on a closed one. -/
def closeChan : Chan → Except Panic Chan
  | .isOpen => .ok .isClosed
  | .isClosed => .error .closeOfClosedChannel

/-- `func Quit() { close(done) }` -/
def Quit {PG : Type} (s : QuitState PG) : Outcome PG :=
  match closeChan s.done with
  | .ok ch => { state := { s with done := ch }, panicked := none, closes := 1 }
  | .error p => { state := s, panicked := some p, closes := 1 }

/-- Sequencing of two calls: the second runs only if the first returned. -/
def Outcome.andThen {PG : Type} (o : Outcome PG) (f : QuitState PG → Outcome PG) :
    Outcome PG :=
  match o.panicked with
  | some _ => o
  | none =>
    let o2 := f o.state
    { state := o2.state, panicked := o2.panicked, closes := o.closes + o2.closes }

/-- `func PopPager() { pagers.Pop(); if pagers.Size() == 0 { Quit() } }` -/
def PopPager {PG : Type} (s : QuitState PG) : Outcome PG :=
  let s1 : QuitState PG := { s with pagers := s.pagers.Pop }
  if s1.pagers.Size = 0 then
    Quit s1
  else
    { state := s1, panicked := none, closes := 0 }

/-! ## Key dispatch (`handleEvent`, the key-event branch of `Run`, `AddEventHandler`) -/

/-- The package variables seen by the dispatch chain: the global handler registry
`eventHandlers`, of a type `R` declared outside `rat.go`, and everything else
(`gPrompt`, `widgets`, `pagers`, `done`, `modes`, ...) as `rest`. -/
structure Globals (R σ : Type) where
  eventHandlers : R
  rest : σ

/-- The code `handleEvent`, `Run` and `AddEventHandler` call but `rat.go` does not define.
`K` is the `keyEvent` type, `H` the `EventHandler` type, `R` the `HandlerRegistry` type.
`gPrompt.HandleEvent`, `widgets.HandleEvent` and `handler.Call` are ordinary Go calls and
may change any package variable, so they transform the whole of `Globals`. -/
structure Collaborators (K H R σ : Type) where
  /-- `gPrompt.HandleEvent(ks)` -/
  promptHandleEvent : List K → Globals R σ → Bool × Globals R σ
  /-- `widgets.HandleEvent(ks)` -/
  widgetsHandleEvent : List K → Globals R σ → Bool × Globals R σ
  /-- `eventHandlers.Find(ks)`; `none` is Go's `nil` handler. -/
  Find : R → List K → Option H
  /-- `eventHandlers.Add(ks, handler)` -/
  Add : R → List K → H → R
  /-- `handler.Call(nil)` -/
  Call : H → Globals R σ → Globals R σ
  /-- `KeySequenceFromString(keyStr)` -/
  KeySequenceFromString : String → List K

/-- One entry of the dispatch trace: a call made by `handleEvent`. -/
inductive DispatchCall (K H : Type) where
  | promptHandleEvent (ks : List K)
  | widgetsHandleEvent (ks : List K)
  | find (ks : List K)
  | call (h : H)
  deriving DecidableEq, Repr

/-- The result of `handleEvent`: its return value, the package state afterwards and the
calls it made, in order. -/
structure Dispatch (K H R σ : Type) where
  handled : Bool
  globals : Globals R σ
  trace : List (DispatchCall K H)

/-- The body of `handleEvent`:
```go
if gPrompt.HandleEvent(ks) { return true }
if widgets.HandleEvent(ks) { return true }
if handler := eventHandlers.Find(ks); handler != nil { handler.Call(nil); return true }
return false
``` -/
def handleEvent {K H R σ : Type} (c : Collaborators K H R σ) (ks : List K)
    (g : Globals R σ) : Dispatch K H R σ :=
  let p := c.promptHandleEvent ks g
  if p.1 then
    { handled := true, globals := p.2, trace := [.promptHandleEvent ks] }
  else
    let w := c.widgetsHandleEvent ks p.2
    if w.1 then
      { handled := true, globals := w.2,
        trace := [.promptHandleEvent ks, .widgetsHandleEvent ks] }
    else
      match c.Find w.2.eventHandlers ks with
      | some handler =>
        { handled := true, globals := c.Call handler w.2,
          trace := [.promptHandleEvent ks, .widgetsHandleEvent ks, .find ks, .call handler] }
      | none =>
        { handled := false, globals := w.2,
          trace := [.promptHandleEvent ks, .widgetsHandleEvent ks, .find ks] }

/-- The handlers invoked in a dispatch trace, in order. -/
def handlerCalls {K H : Type} : List (DispatchCall K H) → List H
  | [] => []
  | .call h :: t => h :: handlerCalls t
  | _ :: t => handlerCalls t

/-- Whether the widget stack was consulted in a dispatch trace. -/
def consultsWidgets {K H : Type} : List (DispatchCall K H) → Bool
  | [] => false
  | .widgetsHandleEvent _ :: _ => true
  | _ :: t => consultsWidgets t

/-- Whether the global registry was consulted in a dispatch trace. -/
def consultsRegistry {K H : Type} : List (DispatchCall K H) → Bool
  | [] => false
  | .find _ :: _ => true
  | _ :: t => consultsRegistry t

/-- The state of the event loop between two iterations: the pending chord buffer
`keyStack`, which only `Run` assigns, the other package variables, and the dispatch
calls made so far. -/
structure Loop (K H R σ : Type) where
  keyStack : List K
  globals : Globals R σ
  trace : List (DispatchCall K H)

/-- The `termbox.EventKey` branch of `Run`, for an event `e` with
`k = KeyEventFromTBEvent(&e)`:
```go
keyStack = append(keyStack, KeyEventFromTBEvent(&e))
if handleEvent(keyStack) { keyStack = nil }
``` -/
def keyEventBranch {K H R σ : Type} (c : Collaborators K H R σ) (k : K)
    (l : Loop K H R σ) : Loop K H R σ :=
  let keyStack := l.keyStack ++ [k]
  let d := handleEvent c keyStack l.globals
  if d.handled then
    { keyStack := [], globals := d.globals, trace := l.trace ++ d.trace }
  else
    { keyStack := keyStack, globals := d.globals, trace := l.trace ++ d.trace }

/-- Successive iterations of the loop of `Run`, each receiving one key event. -/
def keyEvents {K H R σ : Type} (c : Collaborators K H R σ) :
    List K → Loop K H R σ → Loop K H R σ
  | [], l => l
  | k :: ks, l => keyEvents c ks (keyEventBranch c k l)

/-- `func AddEventHandler(keyStr string, handler func())`:
`eventHandlers.Add(KeySequenceFromString(keyStr), NewEventHandler(handler))`.
`handler` stands for the value `NewEventHandler(handler)`. -/
def AddEventHandler {K H R σ : Type} (c : Collaborators K H R σ) (keyStr : String)
    (handler : H) (g : Globals R σ) : Globals R σ :=
  { g with eventHandlers := c.Add g.eventHandlers (c.KeySequenceFromString keyStr) handler }

/-- Modelled from the spec: the `HandlerRegistry` type is declared outside `rat.go`.
"Handler Registry: mapping KeySequence → Handler; registering an existing sequence
overwrites it (last write wins)."  Bindings are kept newest first. -/
structure HandlerRegistry (K H : Type) where
  bindings : List (List K × H)

/-- Modelled from the spec: `NewHandlerRegistry()` is the empty mapping. -/
def NewHandlerRegistry {K H : Type} : HandlerRegistry K H :=
  ⟨[]⟩

/-- Modelled from the spec: `Add` binds the sequence, overriding an earlier binding. -/
def HandlerRegistry.Add {K H : Type} (r : HandlerRegistry K H) (ks : List K) (h : H) :
    HandlerRegistry K H :=
  ⟨(ks, h) :: r.bindings⟩

/-- Whether the registry holds a binding for exactly the sequence `ks`. -/
def HandlerRegistry.Bound {K H : Type} (r : HandlerRegistry K H) (ks : List K) : Prop :=
  ks ∈ r.bindings.map Prod.fst

instance {K H : Type} [DecidableEq K] (r : HandlerRegistry K H) (ks : List K) :
    Decidable (r.Bound ks) :=
  inferInstanceAs (Decidable (ks ∈ r.bindings.map Prod.fst))

/-- Exact-sequence lookup: the handler most recently bound to exactly the sequence `ks`,
whatever longer sequences are bound; `none` when `ks` is not bound.  It is one possible
value of the `Find` parameter, for statements that take the lookup to be exact. -/
def HandlerRegistry.FindExact {K H : Type} [DecidableEq K] (r : HandlerRegistry K H)
    (ks : List K) : Option H :=
  (r.bindings.find? (fun b => decide (b.1 = ks))).map Prod.snd

/-- Modelled from the spec: `Find` as "prefix-aware lookup".  A buffer that is a strict
prefix of a registered sequence is a partial match and yields no handler, also when the
buffer is itself registered ("registering chords g then g g and pressing g, g: only the
g g handler fires (prefix claims precedence), never the g handler"); otherwise the buffer
yields the handler bound to exactly it, if any. -/
def HandlerRegistry.Find {K H : Type} [DecidableEq K] (r : HandlerRegistry K H)
    (ks : List K) : Option H :=
  if r.bindings.any (fun b => decide (ks <+: b.1 ∧ ks ≠ b.1)) then none
  else r.FindExact ks

/-! ## The command executor (`Exec`, `Confirm`, `ConfirmExec`) -/

/-- Who owns the terminal: the UI (termbox initialised) or nobody in this process
(termbox closed, the terminal left to a child process). -/
inductive Terminal where
  | uiHeld
  | released
  deriving DecidableEq, Repr

/-- The `*exec.Cmd` built by `Exec`: program, arguments after the program name, and
environment.  `Stdin`, `Stdout` and `Stderr` are always the process's own. -/
structure Cmd where
  path : String
  args : List String
  env : List String
  deriving DecidableEq, Repr

/-- The value returned by `c.Run()`. -/
inductive RunResult where
  /-- The command ran and exited with status 0 (`nil`). -/
  | success
  /-- The command ran and exited with a non-zero status (`*exec.ExitError`). -/
  | exitError (code : Nat)
  /-- The command could not be started, for instance because the shell is missing. -/
  | startError
  deriving DecidableEq, Repr

/-- A `func()` value handed to the Prompt.  `user cb` is a function supplied by the caller
of this package; `execThen cmd ctx callback` is the closure
`func() { Exec(cmd, ctx); callback() }` that `ConfirmExec` builds, with the variables it
captures. -/
inductive Callback (Ctx CB : Type) where
  | user (cb : CB)
  | execThen (cmd : String) (ctx : Ctx) (callback : Callback Ctx CB)
  deriving DecidableEq, Repr

/-- One entry of the executor's trace: a call that leaves `rat.go`. -/
inductive ExecCall (Ctx CB : Type) where
  | getenv (name : String)
  | contextEnvironment (ctx : Ctx)
  | termboxClose
  | cmdRun (c : Cmd)
  | termboxInit
  | termboxSetInputMode
  | termboxSetOutputMode
  | promptConfirm (message : String) (callback : Callback Ctx CB)
  | userCallback (cb : CB)
  deriving DecidableEq, Repr

/-- What `Exec` and `ConfirmExec` call but `rat.go` does not define. -/
structure System (Ctx CB : Type) where
  /-- `os.Getenv(name)` -/
  Getenv : String → String
  /-- `ContextEnvironment(ctx)` -/
  ContextEnvironment : Ctx → List String
  /-- The value `c.Run()` returns for the command `c`. -/
  cmdRun : Cmd → RunResult
  /-- Whether `termbox.Init()` returns an error when called with the terminal in the
  given state. -/
  termboxInitFails : Terminal → Bool
  /-- The effect on terminal ownership of running a caller-supplied `func()`. -/
  userCallback : CB → Terminal → Terminal

/-- `func closeTermbox() { termbox.Close() }` -/
def closeTermbox {Ctx CB : Type} (_t : Terminal) : Terminal × List (ExecCall Ctx CB) :=
  (.released, [.termboxClose])

/-- The body of `initTermbox`:
```go
if err = termbox.Init(); err != nil { return err }
termbox.SetInputMode(termbox.InputAlt)
termbox.SetOutputMode(termbox.Output256)
return nil
```
The first component is `true` when an error is returned. -/
def initTermbox {Ctx CB : Type} (sys : System Ctx CB) (t : Terminal) :
    Bool × Terminal × List (ExecCall Ctx CB) :=
  if sys.termboxInitFails t then
    (true, t, [.termboxInit])
  else
    (false, .uiHeld, [.termboxInit, .termboxSetInputMode, .termboxSetOutputMode])

/-- The body of `Exec`:
```go
c := exec.Command(os.Getenv("SHELL"), "-c", cmd)
c.Env = ContextEnvironment(ctx)
c.Stdin = os.Stdin; c.Stdout = os.Stdout; c.Stderr = os.Stderr
closeTermbox()
defer initTermbox()
c.Run()
```
`Exec` has no result; both the value of `c.Run()` and the error of the deferred
`initTermbox()` are dropped. -/
def Exec {Ctx CB : Type} (sys : System Ctx CB) (cmd : String) (ctx : Ctx) (t : Terminal) :
    Terminal × List (ExecCall Ctx CB) :=
  let c : Cmd := { path := sys.Getenv "SHELL", args := ["-c", cmd], env := [] }
  let c : Cmd := { c with env := sys.ContextEnvironment ctx }
  let t1 := closeTermbox t
  let _r := sys.cmdRun c
  let t2 := initTermbox sys t1.1
  (t2.2.1, [.getenv "SHELL", .contextEnvironment ctx] ++ t1.2 ++ [.cmdRun c] ++ t2.2.2)

/-- Running a `func()` value. -/
def Callback.invoke {Ctx CB : Type} (sys : System Ctx CB) :
    Callback Ctx CB → Terminal → Terminal × List (ExecCall Ctx CB)
  | .user cb, t => (sys.userCallback cb t, [.userCallback cb])
  | .execThen cmd ctx callback, t =>
    let e := Exec sys cmd ctx t
    let k := Callback.invoke sys callback e.1
    (k.1, e.2 ++ k.2)

/-- `func Confirm(message string, callback func()) { gPrompt.Confirm(message, callback) }`.
The Prompt lives outside `rat.go`; the call is recorded with its arguments. -/
def Confirm {Ctx CB : Type} (message : String) (callback : Callback Ctx CB) (t : Terminal) :
    Terminal × List (ExecCall Ctx CB) :=
  (t, [.promptConfirm message callback])

/-- The body of `ConfirmExec`:
```go
Confirm(fmt.Sprintf("Run `%s`", cmd), func() { Exec(cmd, ctx); callback() })
``` -/
def ConfirmExec {Ctx CB : Type} (cmd : String) (ctx : Ctx) (callback : Callback Ctx CB)
    (t : Terminal) : Terminal × List (ExecCall Ctx CB) :=
  Confirm ("Run `" ++ cmd ++ "`") (.execThen cmd ctx callback) t

/-- The commands started in an executor trace, in order. -/
def commandsRun {Ctx CB : Type} : List (ExecCall Ctx CB) → List Cmd
  | [] => []
  | .cmdRun c :: t => c :: commandsRun t
  | _ :: t => commandsRun t

/-- The caller-supplied functions run in an executor trace, in order. -/
def userCallbacksRun {Ctx CB : Type} : List (ExecCall Ctx CB) → List CB
  | [] => []
  | .userCallback cb :: t => cb :: userCallbacksRun t
  | _ :: t => userCallbacksRun t

/-! ## Script loading (`loadJavascript`, `evalJavascript`) -/

/-- Go's `filepath.Ext` on the reversed path: scan from the end up to the last path
separator and return the suffix starting at the first dot met. -/
def extScan : List Char → List Char → List Char
  | [], _ => []
  | ch :: rest, suffix =>
    if ch = '/' then []
    else if ch = '.' then '.' :: suffix
    else extScan rest (ch :: suffix)

/-- Go's `filepath.Ext(path)`: "the suffix beginning at the final dot in the final
element of path; it is empty if there is no dot". -/
def Ext (path : String) : String :=
  String.mk (extScan path.data.reverse [])

/-- What `loadJavascript` and `evalJavascript` call but `rat.go` does not define.  `F` is
the `*os.File` type and `V` the state of the script VM `vm`. -/
structure ScriptHost (F V : Type) where
  /-- The constant `ConfigDir`. -/
  ConfigDir : String
  /-- `ioutil.ReadDir(dir)`: the names of the entries, in the order returned; `none` when
  it returns an error. -/
  ReadDir : String → Option (List String)
  /-- `filepath.Join(dir, name)` -/
  Join : String → String → String
  /-- `os.Open(path)`; `none` when it returns an error. -/
  Open : String → Option F
  /-- `ioutil.ReadAll(rd)`; `none` when it returns an error. -/
  ReadAll : F → Option String
  /-- `vm.Run(src)`; `none` when it returns an error. -/
  vmRun : V → String → Option V

/-- One script evaluation: `vm.Run` was called on the contents `src` read from the
directory entry `name`. -/
structure Evaluation where
  name : String
  src : String
  deriving DecidableEq, Repr

/-- The state of a load: the VM, the panic raised (if any) and the evaluations made so
far, in order. -/
structure Load (V : Type) where
  vm : V
  panicked : Option Panic
  evaluated : List Evaluation

/-- The body of `evalJavascript`, called on the open file of the entry `name`:
```go
if b, err := ioutil.ReadAll(rd); err == nil {
  _, err := vm.Run(string(b))
  if err != nil { panic(err) }
}
``` -/
def evalJavascript {F V : Type} (h : ScriptHost F V) (name : String) (rd : F)
    (l : Load V) : Load V :=
  match h.ReadAll rd with
  | some b =>
    match h.vmRun l.vm b with
    | some vm => { l with vm := vm, evaluated := l.evaluated ++ [⟨name, b⟩] }
    | none => { l with panicked := some .scriptError,
                       evaluated := l.evaluated ++ [⟨name, b⟩] }
  | none => l

/-- Opening one entry of the configuration directory and evaluating it:
```go
if file, err := os.Open(filepath.Join(ConfigDir, name)); err == nil {
  evalJavascript(file)
  file.Close()
}
```
Nothing runs once a panic has been raised. -/
def openAndEval {F V : Type} (h : ScriptHost F V) (name : String) (l : Load V) : Load V :=
  match l.panicked with
  | some _ => l
  | none =>
    match h.Open (h.Join h.ConfigDir name) with
    | some file => evalJavascript h name file l
    | none => l

/-- The `for _, f := range files` loop of `loadJavascript`:
```go
if filepath.Ext(f.Name()) != ".js" || f.Name() == "rat.js" { continue }
if file, openErr := os.Open(filepath.Join(ConfigDir, f.Name())); openErr == nil { ... }
``` -/
def loadFiles {F V : Type} (h : ScriptHost F V) : List String → Load V → Load V
  | [], l => l
  | name :: files, l =>
    if Ext name ≠ ".js" ∨ name = "rat.js" then
      loadFiles h files l
    else
      loadFiles h files (openAndEval h name l)

/-- The body of `loadJavascript`: the loop over `ioutil.ReadDir(ConfigDir)` when that
succeeds, then the attempt on `rat.js`. -/
def loadJavascript {F V : Type} (h : ScriptHost F V) (vm : V) : Load V :=
  let l0 : Load V := { vm := vm, panicked := none, evaluated := [] }
  let l1 :=
    match h.ReadDir h.ConfigDir with
    | some files => loadFiles h files l0
    | none => l0
  openAndEval h "rat.js" l1

/-! ## Layout (`layout`, the resize branch of `Run`) -/

/-- Go's `int` on a 64-bit platform: the integer `z` reduced to the range
`-2^63 .. 2^63 - 1`. -/
def wrapInt (z : Int) : Int :=
  (z + 2 ^ 63) % 2 ^ 64 - 2 ^ 63

/-- The values a Go `int` can hold. -/
def IsGoInt (z : Int) : Prop :=
  -(2 ^ 63) ≤ z ∧ z < 2 ^ 63

instance (z : Int) : Decidable (IsGoInt z) :=
  inferInstanceAs (Decidable (-(2 ^ 63) ≤ z ∧ z < 2 ^ 63))

/-- Modelled from the spec: the `Box` type and `NewBox` are declared outside `rat.go`.
A box is a screen region; `layout` builds "the terminal area minus one bottom row" as
`NewBox(0, 0, width, height-1)`, so the arguments are left, top, width, height. -/
structure Box where
  left : Int
  top : Int
  width : Int
  height : Int
  deriving DecidableEq, Repr

/-- Modelled from the spec: `NewBox(left, top, width, height)`. -/
def NewBox (left top width height : Int) : Box :=
  ⟨left, top, width, height⟩

/-- The screen cell in column `x`, row `y` lies in the box. -/
def Box.Covers (b : Box) (x y : Int) : Prop :=
  b.left ≤ x ∧ x < b.left + b.width ∧ b.top ≤ y ∧ y < b.top + b.height

instance (b : Box) (x y : Int) : Decidable (b.Covers x y) :=
  inferInstanceAs
    (Decidable (b.left ≤ x ∧ x < b.left + b.width ∧ b.top ≤ y ∧ y < b.top + b.height))

/-- The screen cell in column `x`, row `y` lies on a terminal of `w` columns and `h`
rows. -/
def OnTerminal (w h x y : Int) : Prop :=
  0 ≤ x ∧ x < w ∧ 0 ≤ y ∧ y < h

instance (w h x y : Int) : Decidable (OnTerminal w h x y) :=
  inferInstanceAs (Decidable (0 ≤ x ∧ x < w ∧ 0 ≤ y ∧ y < h))

/-- A widget of the stack: the region it was last assigned, and the rest of it. -/
structure Widget (α : Type) where
  box : Box
  impl : α
  deriving DecidableEq, Repr

/-- Modelled from the spec: `WidgetStack.SetBox` is declared outside `rat.go`.  "Every
Widget receives the identical region on resize." -/
def WidgetStack.SetBox {α : Type} (ws : List (Widget α)) (b : Box) : List (Widget α) :=
  ws.map (fun w => { w with box := b })

/-- The package variables written by `layout`: the widget stack and the Prompt, the
latter as the region it was last assigned and the rest of it. -/
structure Screen (α ρ : Type) where
  widgets : List (Widget α)
  gPromptBox : Box
  gPrompt : ρ
  deriving DecidableEq, Repr

/-- The body of `layout`:
```go
widgets.SetBox(NewBox(0, 0, width, height-1))
gPrompt.SetBox(NewBox(0, height-1, width, 1))
``` -/
def layout {α ρ : Type} (width height : Int) (s : Screen α ρ) : Screen α ρ :=
  { s with widgets := WidgetStack.SetBox s.widgets (NewBox 0 0 width (wrapInt (height - 1))),
           gPromptBox := NewBox 0 (wrapInt (height - 1)) width 1 }

/-- The `termbox.EventResize` branch of `Run`: `layout(e.Width, e.Height)`. -/
def resizeBranch {α ρ : Type} (eWidth eHeight : Int) (s : Screen α ρ) : Screen α ρ :=
  layout eWidth eHeight s

/-! ## Vocabulary of the statements -/

/-- A layer of the dispatch chain declines: it reports unhandled on every buffer and
leaves the global registry as it found it.  This is the behaviour of an idle Prompt, and
of a widget stack none of whose widgets reports handled. -/
def Declines {K R σ : Type} (f : List K → Globals R σ → Bool × Globals R σ) : Prop :=
  ∀ ks g, (f ks g).1 = false ∧ (f ks g).2.eventHandlers = g.eventHandlers

/-- The loop state with an empty chord buffer and nothing dispatched yet. -/
def Loop.start {K H R σ : Type} (g : Globals R σ) : Loop K H R σ :=
  { keyStack := [], globals := g, trace := [] }

/-- The contents of the entry `name` of the configuration directory, when it can be
opened and read. -/
def readable {F V : Type} (h : ScriptHost F V) (name : String) : Option String :=
  (h.Open (h.Join h.ConfigDir name)).bind h.ReadAll

/-- The evaluations a list of entry names gives rise to when no script fails: one for
each entry that can be opened and read, in order. -/
def evaluationsOf {F V : Type} (h : ScriptHost F V) (names : List String) :
    List Evaluation :=
  names.filterMap (fun n => (readable h n).map (fun src => ⟨n, src⟩))

/-- The listed entries "whose extension is .js and whose name is not rat.js", in listing
order. -/
def scriptEntries (files : List String) : List String :=
  files.filter (fun n => decide (Ext n = ".js" ∧ n ≠ "rat.js"))

/-- The entries listed for the configuration directory; none when listing fails. -/
def listing {F V : Type} (h : ScriptHost F V) : List String :=
  (h.ReadDir h.ConfigDir).getD []

/-- The evaluations of a load in which no script fails: the readable scripts of the
listing, then `rat.js` if it is readable. -/
def fullLoad {F V : Type} (h : ScriptHost F V) : List Evaluation :=
  evaluationsOf h (scriptEntries (listing h)) ++ evaluationsOf h ["rat.js"]

/-! ## Concrete collaborators -/

/-- Collaborators over the exact-lookup registry with an idle Prompt and a widget stack
that handles nothing.  A key event is its character code, a key string lists its keys
separated by blanks, a handler is a number, and calling a handler changes nothing. -/
def quietCollaborators : Collaborators Nat Nat (HandlerRegistry Nat Nat) Unit where
  promptHandleEvent := fun _ g => (false, g)
  widgetsHandleEvent := fun _ g => (false, g)
  Find := fun r ks => r.FindExact ks
  Add := fun r ks h => r.Add ks h
  Call := fun _ g => g
  KeySequenceFromString := fun s => (s.data.filter (fun ch => ch ≠ ' ')).map Char.toNat

/-- As `quietCollaborators`, but the widget stack handles every buffer. -/
def greedyWidgets : Collaborators Nat Nat (HandlerRegistry Nat Nat) Unit :=
  { quietCollaborators with widgetsHandleEvent := fun _ g => (true, g) }

/-- As `quietCollaborators`, but the Prompt handles every buffer. -/
def greedyPrompt : Collaborators Nat Nat (HandlerRegistry Nat Nat) Unit :=
  { quietCollaborators with promptHandleEvent := fun _ g => (true, g) }

/-- As `quietCollaborators`, but the registry lookup is the prefix-aware `Find`. -/
def awareCollaborators : Collaborators Nat Nat (HandlerRegistry Nat Nat) Unit :=
  { quietCollaborators with Find := fun r ks => r.Find ks }

/-- As `awareCollaborators`, but the widget stack handles every buffer. -/
def awareGreedyWidgets : Collaborators Nat Nat (HandlerRegistry Nat Nat) Unit :=
  { awareCollaborators with widgetsHandleEvent := fun _ g => (true, g) }

/-- The package state with an empty registry. -/
def noBindings : Globals (HandlerRegistry Nat Nat) Unit :=
  { eventHandlers := NewHandlerRegistry, rest := () }

/-- The package state after `AddEventHandler("g", 7)`. -/
def bindingsG : Globals (HandlerRegistry Nat Nat) Unit :=
  AddEventHandler quietCollaborators "g" 7 noBindings

/-- The package state after `AddEventHandler("g g", 5)`. -/
def bindingsGg : Globals (HandlerRegistry Nat Nat) Unit :=
  AddEventHandler quietCollaborators "g g" 5 noBindings

/-- The package state after `AddEventHandler("g", 7)` and `AddEventHandler("g g", 5)`. -/
def bindingsGAndGg : Globals (HandlerRegistry Nat Nat) Unit :=
  AddEventHandler quietCollaborators "g g" 5 bindingsG

/-- A running application: `done` not yet closed, one pager on the stack. -/
def onePager : QuitState Nat :=
  { done := .isOpen, pagers := ⟨[1]⟩ }

/-- A running application with two pagers on the stack. -/
def twoPagers : QuitState Nat :=
  { done := .isOpen, pagers := ⟨[1, 2]⟩ }

/-- A system whose shell is `/bin/sh`, whose commands succeed and whose terminal can
always be initialised again; contexts and callbacks are numbers. -/
def healthySystem : System Nat Nat where
  Getenv := fun name => if name = "SHELL" then "/bin/sh" else ""
  ContextEnvironment := fun _ => ["RAT=1"]
  cmdRun := fun _ => .success
  termboxInitFails := fun _ => false
  userCallback := fun _ t => t

/-- As `healthySystem`, but `termbox.Init()` returns an error. -/
def noTerminalSystem : System Nat Nat :=
  { healthySystem with termboxInitFails := fun _ => true }

/-- A configuration directory holding `a.js` and `notes.txt` but no `rat.js`; a file is
its contents and every script evaluates. -/
def dirWithoutRatJs : ScriptHost String Unit where
  ConfigDir := "cfg"
  ReadDir := fun _ => some ["a.js", "notes.txt"]
  Join := fun d n => d ++ "/" ++ n
  Open := fun p => if p = "cfg/a.js" then some "bind()" else none
  ReadAll := fun f => some f
  vmRun := fun _ _ => some ()

/-- A configuration directory holding `a.js`, `b.js` and `rat.js`, all readable; every
script evaluates. -/
def dirWithRatJs : ScriptHost String Unit where
  ConfigDir := "cfg"
  ReadDir := fun _ => some ["a.js", "b.js", "rat.js"]
  Join := fun d n => d ++ "/" ++ n
  Open := fun p => some ("// " ++ p)
  ReadAll := fun f => some f
  vmRun := fun _ _ => some ()

/-- A screen with two widgets and the Prompt, none of them laid out yet. -/
def freshScreen : Screen Nat Nat :=
  { widgets := [⟨NewBox 0 0 0 0, 1⟩, ⟨NewBox 5 5 5 5, 2⟩], gPromptBox := NewBox 0 0 0 0,
    gPrompt := 0 }

/-! # Theorems -/

/-! ## The quit signal -/

/-- Two calls of `Quit` in a row: the second one panics, whatever the state before the
first. -/
theorem Quit_andThen_Quit {PG : Type} (s : QuitState PG) :
    ((Quit s).andThen Quit).panicked = some Panic.closeOfClosedChannel := by
  cases s with
  | mk done pagers =>
    cases done <;> simp [Quit, closeChan, Outcome.andThen]

/-- Claim C2 (fails on the code): `Quit` is not idempotent.  From a running application
(`done` open) the first `Quit` returns and closes `done`; a second `Quit` then reaches
`close(done)` on the closed channel and panics.  The same happens when `PopPager` is
called twice with one pager on the stack, and from every state the second of two `Quit`
calls in a row panics. -/
theorem Quit_second_call_panics :
    (Quit onePager).panicked = none ∧
    (Quit onePager).state.done = Chan.isClosed ∧
    (Quit (Quit onePager).state).panicked = some Panic.closeOfClosedChannel ∧
    ((PopPager onePager).andThen PopPager).panicked = some Panic.closeOfClosedChannel ∧
    (∀ s : QuitState Nat, ((Quit s).andThen Quit).panicked
      = some Panic.closeOfClosedChannel) :=
  ⟨by decide, by decide, by decide, by decide, fun s => Quit_andThen_Quit s⟩

/-- Claim C6: `PopPager` on a stack of exactly one pager leaves the stack empty and
executes `close(done)` exactly once (which succeeds, closing `done`, whenever `done` was
still open); on a stack of two or more pagers it removes exactly the top pager, executes
no `close(done)`, cannot panic and leaves `done` as it was. -/
theorem PopPager_quits_on_last {PG : Type} (s : QuitState PG) :
    (s.pagers.Size = 1 →
      (PopPager s).state.pagers.pagers = [] ∧ (PopPager s).closes = 1 ∧
      (s.done = Chan.isOpen →
        (PopPager s).panicked = none ∧ (PopPager s).state.done = Chan.isClosed)) ∧
    (2 ≤ s.pagers.Size →
      (∃ top, s.pagers.pagers = (PopPager s).state.pagers.pagers ++ [top]) ∧
      (PopPager s).state.pagers.Size + 1 = s.pagers.Size ∧
      (PopPager s).closes = 0 ∧ (PopPager s).panicked = none ∧
      (PopPager s).state.done = s.done) := by
  obtain ⟨done, ⟨ps⟩⟩ := s
  constructor
  · intro h1
    simp only [PagerStack.Size] at h1
    have hlen : ps.dropLast.length = 0 := by simp [h1]
    refine ⟨?_, ?_, ?_⟩
    · simp [PopPager, PagerStack.Pop, PagerStack.Size, hlen, Quit]
      cases closeChan done <;> exact List.length_eq_zero.mp hlen
    · simp [PopPager, PagerStack.Pop, PagerStack.Size, hlen, Quit]
      cases closeChan done <;> simp
    · intro hd
      simp only at hd
      subst hd
      simp [PopPager, PagerStack.Pop, PagerStack.Size, hlen, Quit, closeChan]
  · intro h2
    simp only [PagerStack.Size] at h2
    have hne : ps ≠ [] := by
      intro h; subst h; simp at h2
    have hlen : ps.dropLast.length ≠ 0 := by
      simp; omega
    have hsplit : ps = ps.dropLast ++ [ps.getLast hne] :=
      (List.dropLast_append_getLast hne).symm
    have hpop : PopPager (⟨done, ⟨ps⟩⟩ : QuitState PG)
        = { state := ⟨done, ⟨ps.dropLast⟩⟩, panicked := none, closes := 0 } := by
      simp only [PopPager, PagerStack.Pop, PagerStack.Size, hlen, if_false]
    rw [hpop]
    refine ⟨⟨ps.getLast hne, hsplit⟩, ?_, rfl, rfl, rfl⟩
    simp only [PagerStack.Size, List.length_dropLast]
    omega

/-- `PopPager_quits_on_last` at a one-pager and at a two-pager stack of a running
application. -/
theorem PopPager_quits_on_last_witness :
    onePager.pagers.Size = 1 ∧ onePager.done = Chan.isOpen ∧
    (PopPager onePager).state.pagers.pagers = [] ∧ (PopPager onePager).closes = 1 ∧
    (PopPager onePager).panicked = none ∧ (PopPager onePager).state.done = Chan.isClosed ∧
    2 ≤ twoPagers.pagers.Size ∧
    (PopPager twoPagers).state.pagers.Size + 1 = twoPagers.pagers.Size ∧
    (PopPager twoPagers).closes = 0 ∧ (PopPager twoPagers).state.done = Chan.isOpen :=
  have h1 := (PopPager_quits_on_last onePager).1 (by decide)
  have h2 := (PopPager_quits_on_last twoPagers).2 (by decide)
  ⟨by decide, rfl, h1.1, h1.2.1, (h1.2.2 rfl).1, (h1.2.2 rfl).2, by decide, h2.2.1,
    h2.2.2.1, h2.2.2.2.2⟩

/-! ## Key dispatch -/

/-- Claim C1: `handleEvent` dispatches in strict priority order, first handled wins.  If
the Prompt reports handled, the result is `true` and the only call made is the Prompt's
(widget stack and registry not consulted, no handler called).  Otherwise, if the widget
stack reports handled, the result is `true`, the registry is not consulted and no handler
is called.  Otherwise, if `Find(ks)` yields a handler, the result is `true` and exactly
that handler is called, once; if `Find(ks)` yields none, the result is `false` and no
handler is called. -/
theorem handleEvent_priority {K H R σ : Type} (c : Collaborators K H R σ) (ks : List K)
    (g : Globals R σ) :
    ((c.promptHandleEvent ks g).1 = true →
      (handleEvent c ks g).handled = true ∧
      (handleEvent c ks g).trace = [.promptHandleEvent ks] ∧
      consultsWidgets (handleEvent c ks g).trace = false ∧
      consultsRegistry (handleEvent c ks g).trace = false ∧
      handlerCalls (handleEvent c ks g).trace = []) ∧
    ((c.promptHandleEvent ks g).1 = false →
      ((c.widgetsHandleEvent ks (c.promptHandleEvent ks g).2).1 = true →
        (handleEvent c ks g).handled = true ∧
        (handleEvent c ks g).trace = [.promptHandleEvent ks, .widgetsHandleEvent ks] ∧
        consultsRegistry (handleEvent c ks g).trace = false ∧
        handlerCalls (handleEvent c ks g).trace = []) ∧
      ((c.widgetsHandleEvent ks (c.promptHandleEvent ks g).2).1 = false →
        (∀ h, c.Find (c.widgetsHandleEvent ks (c.promptHandleEvent ks g).2).2.eventHandlers ks
              = some h →
          (handleEvent c ks g).handled = true ∧
          handlerCalls (handleEvent c ks g).trace = [h] ∧
          (handleEvent c ks g).globals
            = c.Call h (c.widgetsHandleEvent ks (c.promptHandleEvent ks g).2).2) ∧
        (c.Find (c.widgetsHandleEvent ks (c.promptHandleEvent ks g).2).2.eventHandlers ks
              = none →
          (handleEvent c ks g).handled = false ∧
          handlerCalls (handleEvent c ks g).trace = []))) := by
  refine ⟨?_, ?_⟩
  · intro hp
    simp [handleEvent, hp, consultsWidgets, consultsRegistry, handlerCalls]
  · intro hp
    refine ⟨?_, ?_⟩
    · intro hw
      simp [handleEvent, hp, hw, consultsRegistry, handlerCalls]
    · intro hw
      refine ⟨?_, ?_⟩
      · intro h hf
        simp [handleEvent, hp, hw, hf, handlerCalls]
      · intro hf
        simp [handleEvent, hp, hw, hf, handlerCalls]

/-- `handleEvent_priority` on the key `g`: with a Prompt that handles, with a widget
stack that handles, with `g` bound in the registry, and with nothing bound. -/
theorem handleEvent_priority_witness :
    (handleEvent greedyPrompt [103] bindingsG).handled = true ∧
    handlerCalls (handleEvent greedyPrompt [103] bindingsG).trace = [] ∧
    (handleEvent greedyWidgets [103] bindingsG).handled = true ∧
    handlerCalls (handleEvent greedyWidgets [103] bindingsG).trace = [] ∧
    (handleEvent quietCollaborators [103] bindingsG).handled = true ∧
    handlerCalls (handleEvent quietCollaborators [103] bindingsG).trace = [7] ∧
    (handleEvent quietCollaborators [103] noBindings).handled = false :=
  have h1 := (handleEvent_priority greedyPrompt [103] bindingsG).1 rfl
  have h2 := ((handleEvent_priority greedyWidgets [103] bindingsG).2 rfl).1 rfl
  have h3 := (((handleEvent_priority quietCollaborators [103] bindingsG).2 rfl).2 rfl).1 7
    (by decide)
  have h4 := (((handleEvent_priority quietCollaborators [103] noBindings).2 rfl).2 rfl).2
    (by decide)
  ⟨h1.1, h1.2.2.2.2, h2.1, h2.2.2.2, h3.1, h3.2.1, h4.1⟩

theorem handlerCalls_append {K H : Type} (a b : List (DispatchCall K H)) :
    handlerCalls (a ++ b) = handlerCalls a ++ handlerCalls b := by
  induction a with
  | nil => rfl
  | cons x t ih =>
    cases x <;> simp [handlerCalls, ih]

/-- The value of `handleEvent` when no layer matches. -/
theorem handleEvent_unmatched {K H R σ : Type} (c : Collaborators K H R σ) (ks : List K)
    (g : Globals R σ)
    (hp : (c.promptHandleEvent ks g).1 = false)
    (hw : (c.widgetsHandleEvent ks (c.promptHandleEvent ks g).2).1 = false)
    (hf : c.Find (c.widgetsHandleEvent ks (c.promptHandleEvent ks g).2).2.eventHandlers ks
            = none) :
    handleEvent c ks g =
      { handled := false, globals := (c.widgetsHandleEvent ks (c.promptHandleEvent ks g).2).2,
        trace := [.promptHandleEvent ks, .widgetsHandleEvent ks, .find ks] } := by
  simp only [handleEvent, hp, hw, hf, Bool.false_eq_true, if_false]

/-- The value of `handleEvent` when only the global registry matches. -/
theorem handleEvent_found {K H R σ : Type} (c : Collaborators K H R σ) (ks : List K)
    (g : Globals R σ) (h : H)
    (hp : (c.promptHandleEvent ks g).1 = false)
    (hw : (c.widgetsHandleEvent ks (c.promptHandleEvent ks g).2).1 = false)
    (hf : c.Find (c.widgetsHandleEvent ks (c.promptHandleEvent ks g).2).2.eventHandlers ks
            = some h) :
    handleEvent c ks g =
      { handled := true,
        globals := c.Call h (c.widgetsHandleEvent ks (c.promptHandleEvent ks g).2).2,
        trace := [.promptHandleEvent ks, .widgetsHandleEvent ks, .find ks, .call h] } := by
  simp only [handleEvent, hp, hw, hf, Bool.false_eq_true, if_false]

/-- The key-event branch clears the chord buffer exactly when the dispatch reports
handled. -/
theorem keyEventBranch_clears_iff_handled {K H R σ : Type} (c : Collaborators K H R σ)
    (k : K) (l : Loop K H R σ) :
    (keyEventBranch c k l).keyStack = [] ↔
      (handleEvent c (l.keyStack ++ [k]) l.globals).handled = true := by
  unfold keyEventBranch
  by_cases h : (handleEvent c (l.keyStack ++ [k]) l.globals).handled = true
  · simp [h]
  · simp [h]

/-- One unmatched keystroke: the buffer grows by the key, no handler is called and the
registry is unchanged. -/
theorem keyEventBranch_unmatched {K H R σ : Type} (c : Collaborators K H R σ) (k : K)
    (l : Loop K H R σ)
    (hP : Declines c.promptHandleEvent) (hW : Declines c.widgetsHandleEvent)
    (hF : c.Find l.globals.eventHandlers (l.keyStack ++ [k]) = none) :
    (keyEventBranch c k l).keyStack = l.keyStack ++ [k] ∧
    handlerCalls (keyEventBranch c k l).trace = handlerCalls l.trace ∧
    (keyEventBranch c k l).globals.eventHandlers = l.globals.eventHandlers := by
  have hp := hP (l.keyStack ++ [k]) l.globals
  have hw := hW (l.keyStack ++ [k]) (c.promptHandleEvent (l.keyStack ++ [k]) l.globals).2
  have hreg : (c.widgetsHandleEvent (l.keyStack ++ [k])
      (c.promptHandleEvent (l.keyStack ++ [k]) l.globals).2).2.eventHandlers
      = l.globals.eventHandlers := hw.2.trans hp.2
  have hd := handleEvent_unmatched c (l.keyStack ++ [k]) l.globals hp.1 hw.1
    (by rw [hreg]; exact hF)
  simp [keyEventBranch, hd, handlerCalls_append, handlerCalls, hreg]

/-- One keystroke completing a bound chord: the handler is called and the buffer is
cleared. -/
theorem keyEventBranch_matched {K H R σ : Type} (c : Collaborators K H R σ) (k : K)
    (l : Loop K H R σ) (h : H)
    (hP : Declines c.promptHandleEvent) (hW : Declines c.widgetsHandleEvent)
    (hF : c.Find l.globals.eventHandlers (l.keyStack ++ [k]) = some h) :
    (keyEventBranch c k l).keyStack = [] ∧
    handlerCalls (keyEventBranch c k l).trace = handlerCalls l.trace ++ [h] := by
  have hp := hP (l.keyStack ++ [k]) l.globals
  have hw := hW (l.keyStack ++ [k]) (c.promptHandleEvent (l.keyStack ++ [k]) l.globals).2
  have hreg : (c.widgetsHandleEvent (l.keyStack ++ [k])
      (c.promptHandleEvent (l.keyStack ++ [k]) l.globals).2).2.eventHandlers
      = l.globals.eventHandlers := hw.2.trans hp.2
  have hd := handleEvent_found c (l.keyStack ++ [k]) l.globals h hp.1 hw.1
    (by rw [hreg]; exact hF)
  simp [keyEventBranch, hd, handlerCalls_append, handlerCalls]

/-- A run of unmatched keystrokes accumulates in the buffer. -/
theorem keyEvents_unmatched {K H R σ : Type} (c : Collaborators K H R σ)
    (hP : Declines c.promptHandleEvent) (hW : Declines c.widgetsHandleEvent)
    (Q : List K) (l : Loop K H R σ)
    (hF : ∀ Q1, Q1 ≠ [] → Q1 <+: Q →
      c.Find l.globals.eventHandlers (l.keyStack ++ Q1) = none) :
    (keyEvents c Q l).keyStack = l.keyStack ++ Q ∧
    handlerCalls (keyEvents c Q l).trace = handlerCalls l.trace ∧
    (keyEvents c Q l).globals.eventHandlers = l.globals.eventHandlers := by
  induction Q generalizing l with
  | nil => simp [keyEvents]
  | cons k Q ih =>
    have h1 := keyEventBranch_unmatched c k l hP hW
      (hF [k] (by simp) (by simp))
    have h2 := ih (keyEventBranch c k l) (by
      intro Q1 hne hpre
      rw [h1.1, h1.2.2, List.append_assoc]
      exact hF (k :: Q1) (by simp) (by simpa using hpre))
    simp only [keyEvents]
    refine ⟨?_, ?_, ?_⟩
    · rw [h2.1, h1.1]; simp
    · rw [h2.2.1, h1.2.1]
    · rw [h2.2.2, h1.2.2]

theorem keyEvents_append {K H R σ : Type} (c : Collaborators K H R σ) (A B : List K)
    (l : Loop K H R σ) : keyEvents c (A ++ B) l = keyEvents c B (keyEvents c A l) := by
  induction A generalizing l with
  | nil => rfl
  | cons k A ih => simp [keyEvents, ih]

/-- In the exact-lookup registry a sequence just added is found, bound to the handler
added. -/
theorem HandlerRegistry.FindExact_Add {K H : Type} [DecidableEq K]
    (r : HandlerRegistry K H) (ks : List K) (h : H) :
    (r.Add ks h).FindExact ks = some h := by
  simp [HandlerRegistry.Add, HandlerRegistry.FindExact]

/-- The prefix-aware lookup yields nothing on a strict initial segment of a bound
sequence. -/
theorem HandlerRegistry.Find_strict_segment {K H : Type} [DecidableEq K]
    (r : HandlerRegistry K H) (Q T : List K) (hT : r.Bound T) (hQT : Q <+: T)
    (hne : Q ≠ T) : r.Find Q = none := by
  unfold HandlerRegistry.Bound at hT
  obtain ⟨b, hb, rfl⟩ := List.mem_map.mp hT
  have hany : r.bindings.any (fun b => decide (Q <+: b.1 ∧ Q ≠ b.1)) = true := by
    rw [List.any_eq_true]
    exact ⟨b, hb, by simpa using ⟨hQT, hne⟩⟩
  simp only [HandlerRegistry.Find, hany, if_true]

/-- With exact-sequence lookup, `AddEventHandler(keyStr, handler)` registers the chord
`KeySequenceFromString(keyStr)`: afterwards `Find` on it yields `handler`. -/
theorem AddEventHandler_registers {K H σ : Type} [DecidableEq K]
    (c : Collaborators K H (HandlerRegistry K H) σ)
    (hFind : ∀ r ks, c.Find r ks = r.FindExact ks)
    (hAdd : ∀ r ks h, c.Add r ks h = r.Add ks h)
    (keyStr : String) (handler : H) (g : Globals (HandlerRegistry K H) σ) :
    c.Find (AddEventHandler c keyStr handler g).eventHandlers
      (c.KeySequenceFromString keyStr) = some handler := by
  simp only [AddEventHandler, hFind, hAdd]
  exact HandlerRegistry.FindExact_Add _ _ _

/-- The idle Prompt and the widget stack of `awareCollaborators` decline. -/
theorem awareCollaborators_declines :
    Declines awareCollaborators.promptHandleEvent ∧
    Declines awareCollaborators.widgetsHandleEvent :=
  ⟨fun _ _ => ⟨rfl, rfl⟩, fun _ _ => ⟨rfl, rfl⟩⟩

/-- The example of the spec under the prefix-aware lookup: with `g` and `g g` bound,
pressing `g`, `g` calls only the handler of `g g`, once, and clears the buffer. -/
theorem awareCollaborators_g_then_g :
    handlerCalls (keyEvents awareCollaborators [103] (Loop.start bindingsGAndGg)).trace
      = [] ∧
    handlerCalls (keyEvents awareCollaborators [103, 103] (Loop.start bindingsGAndGg)).trace
      = [5] ∧
    (keyEvents awareCollaborators [103, 103] (Loop.start bindingsGAndGg)).keyStack = [] := by
  decide

/-- The idle Prompt and the widget stack of `quietCollaborators` decline. -/
theorem quietCollaborators_declines :
    Declines quietCollaborators.promptHandleEvent ∧
    Declines quietCollaborators.widgetsHandleEvent :=
  ⟨fun _ _ => ⟨rfl, rfl⟩, fun _ _ => ⟨rfl, rfl⟩⟩

/-- The only non-empty proper initial segment of `g g` is `g`. -/
theorem proper_segment_of_gg (P : List Nat) (hne : P ≠ []) (hpre : P <+: [103, 103])
    (hneq : P ≠ [103, 103]) : P = [103] := by
  rcases P with _ | ⟨a, _ | ⟨b, t⟩⟩
  · exact absurd rfl hne
  · obtain ⟨t, ht⟩ := hpre
    simp at ht
    simp [ht.1]
  · obtain ⟨t2, ht⟩ := hpre
    simp at ht
    obtain ⟨rfl, rfl, rfl, rfl⟩ := ht
    exact absurd rfl hneq

/-- Claim C3 (fails on the code): with an idle Prompt, a widget stack that handles
nothing and an empty registry, the key `g` pressed on an empty buffer matches nothing,
the dispatch reports unhandled, and the chord buffer after the key-event branch of `Run`
is `[g]`, not empty. -/
theorem keyEventBranch_no_match_counterexample :
    (quietCollaborators.promptHandleEvent [103] noBindings).1 = false ∧
    (quietCollaborators.widgetsHandleEvent [103] noBindings).1 = false ∧
    quietCollaborators.Find noBindings.eventHandlers [103] = none ∧
    (handleEvent quietCollaborators [103] noBindings).handled = false ∧
    (keyEventBranch quietCollaborators 103 (Loop.start noBindings)).keyStack = [103] ∧
    (keyEventBranch quietCollaborators 103 (Loop.start noBindings)).keyStack ≠ [] := by
  decide

/-- Claim C3, amended: when a key event produces no match at all (the Prompt does not
handle the pending buffer, the widget stack does not, and the registry has no handler for
it), the dispatch reports unhandled, calls no handler, and the key-event branch of `Run`
keeps the pending buffer: afterwards `keyStack` is the previous buffer followed by the new
key, hence not empty. -/
theorem keyEventBranch_no_match_retains_buffer {K H R σ : Type}
    (c : Collaborators K H R σ) (k : K) (l : Loop K H R σ)
    (hP : (c.promptHandleEvent (l.keyStack ++ [k]) l.globals).1 = false)
    (hW : (c.widgetsHandleEvent (l.keyStack ++ [k])
            (c.promptHandleEvent (l.keyStack ++ [k]) l.globals).2).1 = false)
    (hF : c.Find (c.widgetsHandleEvent (l.keyStack ++ [k])
            (c.promptHandleEvent (l.keyStack ++ [k]) l.globals).2).2.eventHandlers
            (l.keyStack ++ [k]) = none) :
    (handleEvent c (l.keyStack ++ [k]) l.globals).handled = false ∧
    handlerCalls (handleEvent c (l.keyStack ++ [k]) l.globals).trace = [] ∧
    (keyEventBranch c k l).keyStack = l.keyStack ++ [k] ∧
    (keyEventBranch c k l).keyStack ≠ [] := by
  have hd := handleEvent_unmatched c (l.keyStack ++ [k]) l.globals hP hW hF
  simp [keyEventBranch, hd, handlerCalls]

/-- `keyEventBranch_no_match_retains_buffer` for the key `g` pressed after an unmatched
`g`, with nothing bound. -/
theorem keyEventBranch_no_match_retains_buffer_witness :
    (handleEvent quietCollaborators [103, 103] noBindings).handled = false ∧
    (keyEventBranch quietCollaborators 103
      (keyEventBranch quietCollaborators 103 (Loop.start noBindings))).keyStack
      = [103, 103] :=
  have h := keyEventBranch_no_match_retains_buffer quietCollaborators 103
    (keyEventBranch quietCollaborators 103 (Loop.start noBindings)) rfl rfl (by decide)
  ⟨h.1, h.2.2.1⟩

/-- Claim C4: with the Prompt idle and no widget reporting handled, let `S` be a chord
(at least one keystroke) bound in the global registry to `h` — `Find(S)` yields `h`, which
is what `AddEventHandler` establishes under exact-sequence lookup — such that `Find`
yields nothing on every non-empty proper initial segment of `S`.  Feeding the keystrokes
of `S` one at a time to the key-event branch of `Run`, starting from an empty buffer:
after any proper initial segment no handler has been called and the buffer holds that
segment; after the final keystroke the handlers called are exactly `h`, once, and the
buffer is empty. -/
theorem chord_fires_once_at_final_keystroke {K H R σ : Type} (c : Collaborators K H R σ)
    (g : Globals R σ) (S : List K) (h : H)
    (hP : Declines c.promptHandleEvent) (hW : Declines c.widgetsHandleEvent)
    (hne : S ≠ [])
    (hS : c.Find g.eventHandlers S = some h)
    (hpre : ∀ P, P ≠ [] → P <+: S → P ≠ S → c.Find g.eventHandlers P = none) :
    (∀ P, P <+: S → P ≠ S →
      handlerCalls (keyEvents c P (Loop.start g)).trace = [] ∧
      (keyEvents c P (Loop.start g)).keyStack = P) ∧
    handlerCalls (keyEvents c S (Loop.start g)).trace = [h] ∧
    (keyEvents c S (Loop.start g)).keyStack = [] := by
  have hsegment : ∀ P, P <+: S → P ≠ S →
      (keyEvents c P (Loop.start g : Loop K H R σ)).keyStack = P ∧
      handlerCalls (keyEvents c P (Loop.start g : Loop K H R σ)).trace = [] ∧
      (keyEvents c P (Loop.start g : Loop K H R σ)).globals.eventHandlers
        = g.eventHandlers := by
    intro P hPS hneq
    have := keyEvents_unmatched c hP hW P (Loop.start g) (by
      intro Q1 hQ1 hQ1P
      simp only [Loop.start, List.nil_append]
      refine hpre Q1 hQ1 (hQ1P.trans hPS) ?_
      intro heq
      subst heq
      exact hneq (List.IsPrefix.eq_of_length_le hPS hQ1P.length_le |>.symm ▸ rfl))
    simpa [Loop.start, handlerCalls] using this
  refine ⟨fun P h1 h2 => ⟨(hsegment P h1 h2).2.1, (hsegment P h1 h2).1⟩, ?_⟩
  have hsplit : S = S.dropLast ++ [S.getLast hne] := (List.dropLast_append_getLast hne).symm
  have hdl : S.dropLast <+: S := List.dropLast_prefix S
  have hdlne : S.dropLast ≠ S := by
    intro heq
    have := congrArg List.length heq
    simp at this
    have : S.length ≠ 0 := by simpa using hne
    omega
  obtain ⟨h1, h2, h3⟩ := hsegment S.dropLast hdl hdlne
  have hm := keyEventBranch_matched c (S.getLast hne) (keyEvents c S.dropLast (Loop.start g)) h
    hP hW (by rw [h1, h3, ← hsplit]; exact hS)
  have hrun : keyEvents c S (Loop.start g : Loop K H R σ)
      = keyEventBranch c (S.getLast hne) (keyEvents c S.dropLast (Loop.start g)) := by
    conv_lhs => rw [hsplit]
    rw [keyEvents_append]
    rfl
  rw [hrun]
  refine ⟨?_, hm.1⟩
  rw [hm.2, h2]
  rfl

/-- `chord_fires_once_at_final_keystroke` for the chord `g g` registered by
`AddEventHandler("g g", 5)`: nothing is called after the first `g`, handler 5 is called
once after the second, and the buffer ends empty. -/
theorem chord_fires_once_at_final_keystroke_witness :
    quietCollaborators.Find bindingsGg.eventHandlers
      (quietCollaborators.KeySequenceFromString "g g") = some 5 ∧
    handlerCalls (keyEvents quietCollaborators [103] (Loop.start bindingsGg)).trace = [] ∧
    (keyEvents quietCollaborators [103] (Loop.start bindingsGg)).keyStack = [103] ∧
    handlerCalls (keyEvents quietCollaborators [103, 103] (Loop.start bindingsGg)).trace
      = [5] ∧
    (keyEvents quietCollaborators [103, 103] (Loop.start bindingsGg)).keyStack = [] :=
  have h := chord_fires_once_at_final_keystroke quietCollaborators bindingsGg [103, 103] 5
    quietCollaborators_declines.1 quietCollaborators_declines.2 (by decide) (by decide)
    (fun P hne hpre hneq => by
      rw [proper_segment_of_gg P hne hpre hneq]
      decide)
  ⟨AddEventHandler_registers quietCollaborators (fun _ _ => rfl) (fun _ _ _ => rfl) "g g" 5
      noBindings,
    (h.1 [103] (by decide) (by decide)).1, (h.1 [103] (by decide) (by decide)).2,
    h.2.1, h.2.2⟩

/-- Claim C5 (fails on the code): the chord `g g` is bound, `g` is a non-empty proper
initial segment of it and is not itself bound, and the Prompt is idle; but the widget
stack reports handled on `g`, so `handleEvent` returns true and the key-event branch of
`Run` clears the buffer: after feeding `g` the pending buffer is empty, not `g`. -/
theorem proper_segment_counterexample :
    bindingsGg.eventHandlers.Bound [103, 103] ∧
    ([103] : List Nat) ≠ [] ∧ ([103] : List Nat) <+: [103, 103] ∧
    ([103] : List Nat) ≠ [103, 103] ∧
    ¬ bindingsGg.eventHandlers.Bound [103] ∧
    (awareGreedyWidgets.promptHandleEvent [103] bindingsGg).1 = false ∧
    (awareGreedyWidgets.widgetsHandleEvent [103] bindingsGg).1 = true ∧
    (keyEvents awareGreedyWidgets [103] (Loop.start bindingsGg)).keyStack = [] ∧
    (keyEvents awareGreedyWidgets [103] (Loop.start bindingsGg)).keyStack ≠ [103] := by
  decide

/-- Claim C5, amended: with the Prompt idle and no widget reporting handled, for every
registered chord `S` and every non-empty proper initial segment `P` of `S` that is not
itself registered: feeding the keystrokes of `P` one at a time to the key-event branch of
`Run`, starting from an empty buffer, leaves the buffer equal to `P` (not empty) and calls
no handler.  The registry lookup is a parameter, taken to be prefix-aware: it yields
nothing on a non-empty strict initial segment of a registered sequence. -/
theorem proper_segment_stays_pending {K H σ : Type}
    (c : Collaborators K H (HandlerRegistry K H) σ)
    (g : Globals (HandlerRegistry K H) σ) (S P : List K)
    (hP : Declines c.promptHandleEvent) (hW : Declines c.widgetsHandleEvent)
    (hAware : ∀ (r : HandlerRegistry K H) (Q T : List K),
      Q ≠ [] → r.Bound T → Q <+: T → Q ≠ T → c.Find r Q = none)
    (hS : g.eventHandlers.Bound S)
    (hne : P ≠ []) (hPS : P <+: S) (hneq : P ≠ S)
    (_hfree : ¬ g.eventHandlers.Bound P) :
    (keyEvents c P (Loop.start g)).keyStack = P ∧
    (keyEvents c P (Loop.start g)).keyStack ≠ [] ∧
    handlerCalls (keyEvents c P (Loop.start g)).trace = [] := by
  have := keyEvents_unmatched c hP hW P (Loop.start g) (by
    intro Q1 hQ1 hQ1P
    simp only [Loop.start, List.nil_append]
    refine hAware g.eventHandlers Q1 S hQ1 hS (hQ1P.trans hPS) ?_
    intro heq
    subst heq
    exact hneq (List.IsPrefix.eq_of_length_le hPS hQ1P.length_le |>.symm ▸ rfl))
  have h1 : (keyEvents c P (Loop.start g : Loop K H (HandlerRegistry K H) σ)).keyStack
      = P := by
    simpa [Loop.start] using this.1
  refine ⟨h1, by rw [h1]; exact hne, ?_⟩
  simpa [Loop.start, handlerCalls] using this.2.1

/-- `proper_segment_stays_pending` for the segment `g` of the bound chord `g g`, with the
prefix-aware lookup of the registry. -/
theorem proper_segment_stays_pending_witness :
    bindingsGg.eventHandlers.Bound [103, 103] ∧ ¬ bindingsGg.eventHandlers.Bound [103] ∧
    (keyEvents awareCollaborators [103] (Loop.start bindingsGg)).keyStack = [103] ∧
    handlerCalls (keyEvents awareCollaborators [103] (Loop.start bindingsGg)).trace = [] :=
  have h := proper_segment_stays_pending awareCollaborators bindingsGg [103, 103] [103]
    awareCollaborators_declines.1 awareCollaborators_declines.2
    (fun r Q T _ hT hQT hne => HandlerRegistry.Find_strict_segment r Q T hT hQT hne)
    (by decide) (by decide) (by decide) (by decide) (by decide)
  ⟨by decide, by decide, h.1, h.2.2⟩

/-! ## The command executor -/

theorem commandsRun_append {Ctx CB : Type} (a b : List (ExecCall Ctx CB)) :
    commandsRun (a ++ b) = commandsRun a ++ commandsRun b := by
  induction a with
  | nil => rfl
  | cons x t ih => cases x <;> simp [commandsRun, ih]

theorem userCallbacksRun_append {Ctx CB : Type} (a b : List (ExecCall Ctx CB)) :
    userCallbacksRun (a ++ b) = userCallbacksRun a ++ userCallbacksRun b := by
  induction a with
  | nil => rfl
  | cons x t ih => cases x <;> simp [userCallbacksRun, ih]

/-- The calls `Exec` makes, in order. -/
theorem Exec_trace {Ctx CB : Type} (sys : System Ctx CB) (cmd : String) (ctx : Ctx)
    (t : Terminal) :
    (Exec sys cmd ctx t).2 =
      [.getenv "SHELL", .contextEnvironment ctx, .termboxClose,
       .cmdRun ⟨sys.Getenv "SHELL", ["-c", cmd], sys.ContextEnvironment ctx⟩, .termboxInit]
      ++ (if sys.termboxInitFails .released then []
          else [.termboxSetInputMode, .termboxSetOutputMode]) := by
  unfold Exec initTermbox closeTermbox
  by_cases h : sys.termboxInitFails .released = true <;> simp [h]

/-- `Exec` starts exactly one command and runs no caller-supplied function. -/
theorem Exec_commandsRun {Ctx CB : Type} (sys : System Ctx CB) (cmd : String) (ctx : Ctx)
    (t : Terminal) :
    commandsRun (Exec sys cmd ctx t).2
      = [⟨sys.Getenv "SHELL", ["-c", cmd], sys.ContextEnvironment ctx⟩] ∧
    userCallbacksRun (Exec sys cmd ctx t).2 = [] := by
  rw [Exec_trace]
  by_cases h : sys.termboxInitFails .released = true <;>
    simp [h, commandsRun, userCallbacksRun]

/-- Claim C7 (fails on the code): the command `ls` runs and succeeds, but `termbox.Init()`
returns an error in the deferred `initTermbox()`; `Exec` drops that error and returns with
the terminal released, not UI-held. -/
theorem Exec_init_failure_counterexample :
    noTerminalSystem.cmdRun ⟨"/bin/sh", ["-c", "ls"], ["RAT=1"]⟩ = RunResult.success ∧
    (Exec noTerminalSystem "ls" 0 Terminal.uiHeld).1 = Terminal.released ∧
    (Exec noTerminalSystem "ls" 0 Terminal.uiHeld).2 =
      [.getenv "SHELL", .contextEnvironment 0, .termboxClose,
       .cmdRun ⟨"/bin/sh", ["-c", "ls"], ["RAT=1"]⟩, .termboxInit] := by
  decide

/-- Claim C7, amended: for every outcome of the subprocess run, the calls `Exec` makes
are, in order, read `$SHELL`, derive the environment, release the terminal
(`termbox.Close`), run the command, and attempt to reacquire the terminal
(`termbox.Init`, once, after the release), followed by the two mode settings when that
attempt succeeds.  The terminal is UI-held when `Exec` returns if `termbox.Init`
succeeds and released if it fails.  `Exec` returns the same way whatever `c.Run()`
returned: the command's failure is not propagated. -/
theorem Exec_reacquires_when_init_succeeds {Ctx CB : Type} (sys : System Ctx CB)
    (cmd : String) (ctx : Ctx) (t : Terminal) :
    (Exec sys cmd ctx t).2 =
      [.getenv "SHELL", .contextEnvironment ctx, .termboxClose,
       .cmdRun ⟨sys.Getenv "SHELL", ["-c", cmd], sys.ContextEnvironment ctx⟩, .termboxInit]
      ++ (if sys.termboxInitFails .released then []
          else [.termboxSetInputMode, .termboxSetOutputMode]) ∧
    (sys.termboxInitFails .released = false → (Exec sys cmd ctx t).1 = .uiHeld) ∧
    (sys.termboxInitFails .released = true → (Exec sys cmd ctx t).1 = .released) ∧
    (∀ r : Cmd → RunResult,
      Exec { sys with cmdRun := r } cmd ctx t = Exec sys cmd ctx t) := by
  refine ⟨Exec_trace sys cmd ctx t, ?_, ?_, ?_⟩
  · intro h
    simp [Exec, initTermbox, closeTermbox, h]
  · intro h
    simp [Exec, initTermbox, closeTermbox, h]
  · intro r
    rfl

/-- `Exec_reacquires_when_init_succeeds` on a system whose terminal can be initialised
again: the terminal is UI-held on return, also when the command cannot be started. -/
theorem Exec_reacquires_when_init_succeeds_witness :
    (Exec healthySystem "ls" 0 Terminal.uiHeld).1 = Terminal.uiHeld ∧
    Exec { healthySystem with cmdRun := fun _ => RunResult.startError } "ls" 0
      Terminal.uiHeld = Exec healthySystem "ls" 0 Terminal.uiHeld :=
  have h := Exec_reacquires_when_init_succeeds healthySystem "ls" 0 Terminal.uiHeld
  ⟨h.2.1 rfl, h.2.2.2 (fun _ => RunResult.startError)⟩

/-- Claim C8: `ConfirmExec(cmd, ctx, cb)` runs nothing itself; its one call hands the
Prompt the message and a callback `k`.  Whenever `k` is invoked it makes the calls of
`Exec(cmd, ctx)` and then calls `cb`: exactly one command is started, the shell
`$SHELL` with arguments `-c`, `cmd` and environment `ContextEnvironment(ctx)`, and `cb`
runs exactly once, as the last call, after the command has returned. -/
theorem ConfirmExec_callback {Ctx CB : Type} (sys : System Ctx CB) (cmd : String)
    (ctx : Ctx) (cb : CB) (t : Terminal) :
    (ConfirmExec cmd ctx (.user cb) t).1 = t ∧
    commandsRun (ConfirmExec cmd ctx (.user cb) t).2 = [] ∧
    userCallbacksRun (ConfirmExec cmd ctx (.user cb) t).2 = [] ∧
    ∃ k : Callback Ctx CB,
      (ConfirmExec cmd ctx (.user cb) t).2 = [.promptConfirm ("Run `" ++ cmd ++ "`") k] ∧
      ∀ t1 : Terminal,
        (k.invoke sys t1).2 = (Exec sys cmd ctx t1).2 ++ [.userCallback cb] ∧
        (k.invoke sys t1).1 = sys.userCallback cb (Exec sys cmd ctx t1).1 ∧
        commandsRun (k.invoke sys t1).2
          = [⟨sys.Getenv "SHELL", ["-c", cmd], sys.ContextEnvironment ctx⟩] ∧
        userCallbacksRun (k.invoke sys t1).2 = [cb] := by
  refine ⟨rfl, rfl, rfl, .execThen cmd ctx (.user cb), rfl, ?_⟩
  intro t1
  have h := Exec_commandsRun sys cmd ctx t1
  refine ⟨rfl, rfl, ?_, ?_⟩
  · simp only [Callback.invoke, commandsRun_append, h.1]
    simp [commandsRun]
  · simp only [Callback.invoke, userCallbacksRun_append, h.2]
    simp [userCallbacksRun]

/-! ## Script loading -/

theorem openAndEval_panicked {F V : Type} (h : ScriptHost F V) (name : String) (l : Load V)
    (hp : l.panicked ≠ none) : openAndEval h name l = l := by
  unfold openAndEval
  cases hl : l.panicked with
  | none => exact absurd hl hp
  | some p => rfl

theorem openAndEval_running {F V : Type} (h : ScriptHost F V) (name : String) (l : Load V)
    (hp : l.panicked = none) :
    (openAndEval h name l).evaluated = l.evaluated ++ evaluationsOf h [name] := by
  unfold openAndEval evalJavascript evaluationsOf readable
  simp only [hp]
  cases ho : h.Open (h.Join h.ConfigDir name) with
  | none => simp [ho]
  | some file =>
    cases hr : h.ReadAll file with
    | none => simp [ho, hr]
    | some b =>
      cases hv : h.vmRun l.vm b <;> simp [ho, hr, hv]

theorem loadFiles_panicked {F V : Type} (h : ScriptHost F V) (files : List String)
    (l : Load V) (hp : l.panicked ≠ none) : loadFiles h files l = l := by
  induction files with
  | nil => rfl
  | cons n t ih =>
    unfold loadFiles
    split
    · exact ih
    · rw [openAndEval_panicked h n l hp]; exact ih

theorem evaluationsOf_append {F V : Type} (h : ScriptHost F V) (a b : List String) :
    evaluationsOf h (a ++ b) = evaluationsOf h a ++ evaluationsOf h b := by
  simp [evaluationsOf]

theorem evaluationsOf_cons {F V : Type} (h : ScriptHost F V) (a : String) (b : List String) :
    evaluationsOf h (a :: b) = evaluationsOf h [a] ++ evaluationsOf h b :=
  evaluationsOf_append h [a] b

/-- The loop evaluates an initial segment of the scripts it is given, all of them unless
a script fails. -/
theorem loadFiles_evaluated {F V : Type} (h : ScriptHost F V) (files : List String)
    (l : Load V) (hp : l.panicked = none) :
    (∃ done, done <+: evaluationsOf h (scriptEntries files) ∧
      (loadFiles h files l).evaluated = l.evaluated ++ done) ∧
    ((loadFiles h files l).panicked = none →
      (loadFiles h files l).evaluated
        = l.evaluated ++ evaluationsOf h (scriptEntries files)) := by
  induction files generalizing l with
  | nil => simp [loadFiles, scriptEntries, evaluationsOf]
  | cons n t ih =>
    unfold loadFiles
    by_cases hskip : Ext n ≠ ".js" ∨ n = "rat.js"
    · have hs : scriptEntries (n :: t) = scriptEntries t := by
        simp only [scriptEntries, List.filter_cons]
        rw [if_neg (by
          simp only [decide_eq_true_eq]
          tauto)]
      rw [if_pos hskip, hs]
      exact ih l hp
    · have hs : scriptEntries (n :: t) = n :: scriptEntries t := by
        simp only [scriptEntries, List.filter_cons]
        rw [if_pos (by
          simp only [decide_eq_true_eq]
          tauto)]
      rw [if_neg hskip, hs, evaluationsOf_cons]
      have he := openAndEval_running h n l hp
      by_cases hp2 : (openAndEval h n l).panicked = none
      · obtain ⟨⟨done, hd1, hd2⟩, hfull⟩ := ih (openAndEval h n l) hp2
        refine ⟨⟨evaluationsOf h [n] ++ done, ?_, ?_⟩, ?_⟩
        · exact (List.prefix_append_right_inj _).mpr hd1
        · rw [hd2, he, List.append_assoc]
        · intro hfin
          rw [hfull hfin, he, List.append_assoc]
      · rw [loadFiles_panicked h t _ hp2]
        refine ⟨⟨evaluationsOf h [n], List.prefix_append _ _, he⟩, ?_⟩
        intro hfin
        exact absurd hfin hp2

theorem evaluationsOf_name {F V : Type} (h : ScriptHost F V) (names : List String)
    (e : Evaluation) (he : e ∈ evaluationsOf h names) : e.name ∈ names := by
  simp only [evaluationsOf, List.mem_filterMap, Option.map_eq_some'] at he
  obtain ⟨n, hn, src, _, rfl⟩ := he
  exact hn

theorem evaluationsOf_single_length {F V : Type} (h : ScriptHost F V) (n : String) :
    (evaluationsOf h [n]).length ≤ 1 := by
  unfold evaluationsOf
  exact (List.length_filterMap_le _ _).trans (by simp)

theorem scriptEntries_not_ratJs (files : List String) : "rat.js" ∉ scriptEntries files := by
  simp [scriptEntries]

/-- In an initial segment of `A ++ B`, where no element of `A` is marked and `B` has at
most one element, a marked element can only stand last. -/
theorem marked_is_last {α : Type} (p : α → Prop) (A B E pre post : List α) (e : α)
    (hA : ∀ a ∈ A, ¬ p a) (hB : B.length ≤ 1) (hE : E <+: A ++ B)
    (hsplit : E = pre ++ e :: post) (he : p e) : post = [] := by
  obtain ⟨rest, hrest⟩ := hE
  subst hsplit
  have hrest2 : pre ++ (e :: (post ++ rest)) = A ++ B := by simpa using hrest
  rcases List.append_eq_append_iff.mp hrest2 with ⟨a1, hA1, hB1⟩ | ⟨c1, hpre, hB1⟩
  · cases a1 with
    | nil =>
      have hlen := congrArg List.length hB1
      simp at hlen
      have : post.length = 0 := by omega
      exact List.length_eq_zero.mp this
    | cons x a2 =>
      have hx : e = x := by
        have := hB1
        simp at this
        exact this.1
      have hmem : e ∈ A := by rw [hA1, hx]; simp
      exact absurd he (hA e hmem)
  · have hlen := congrArg List.length hB1
    simp at hlen
    have : post.length = 0 := by omega
    exact List.length_eq_zero.mp this

theorem loadJavascript_eq {F V : Type} (h : ScriptHost F V) (vm : V) :
    loadJavascript h vm = openAndEval h "rat.js"
      (loadFiles h (listing h) { vm := vm, panicked := none, evaluated := [] }) := by
  unfold loadJavascript listing
  cases h.ReadDir h.ConfigDir <;> rfl

/-- Claim C9 (fails on the code): a configuration directory that lists `a.js` and
`notes.txt` and holds no `rat.js`.  The load finishes without panic, the only evaluation
is that of `a.js`, and `rat.js` is evaluated zero times, not once. -/
theorem loadJavascript_without_ratJs :
    (loadJavascript dirWithoutRatJs ()).panicked = none ∧
    (loadJavascript dirWithoutRatJs ()).evaluated = [⟨"a.js", "bind()"⟩] ∧
    ((loadJavascript dirWithoutRatJs ()).evaluated.filter
      (fun e => decide (e.name = "rat.js"))).length = 0 := by
  decide

/-- Claim C9, amended: `loadJavascript` evaluates, in directory-listing order, the listed
entries whose extension is `.js` and whose name is not `rat.js` that can be opened and
read, and then `rat.js` if it can be opened and read.  The evaluations made are always an
initial segment of that sequence, and the whole of it when no script evaluation fails.
An evaluation of `rat.js` is always the last evaluation made, and `rat.js` is evaluated
at most once. -/
theorem loadJavascript_order {F V : Type} (h : ScriptHost F V) (vm : V) :
    (loadJavascript h vm).evaluated <+: fullLoad h ∧
    ((loadJavascript h vm).panicked = none → (loadJavascript h vm).evaluated = fullLoad h) ∧
    (∀ pre e post, (loadJavascript h vm).evaluated = pre ++ e :: post →
      e.name = "rat.js" → post = []) ∧
    ((loadJavascript h vm).evaluated.filter
      (fun e => decide (e.name = "rat.js"))).length ≤ 1 := by
  have hpre : (loadJavascript h vm).evaluated <+: fullLoad h ∧
      ((loadJavascript h vm).panicked = none →
        (loadJavascript h vm).evaluated = fullLoad h) := by
    rw [loadJavascript_eq]
    obtain ⟨⟨done, hd1, hd2⟩, hfull⟩ :=
      loadFiles_evaluated h (listing h) { vm := vm, panicked := none, evaluated := [] } rfl
    simp only [List.nil_append] at hd2 hfull
    by_cases hp : (loadFiles h (listing h)
        { vm := vm, panicked := none, evaluated := [] }).panicked = none
    · have he := openAndEval_running h "rat.js" _ hp
      rw [hfull hp] at he
      exact ⟨by rw [he]; exact List.prefix_refl _, fun _ => he⟩
    · rw [openAndEval_panicked h "rat.js" _ hp]
      refine ⟨?_, fun hc => absurd hc hp⟩
      rw [hd2]
      exact hd1.trans (List.prefix_append _ _)
  have hA : ∀ a ∈ evaluationsOf h (scriptEntries (listing h)), ¬ a.name = "rat.js" := by
    intro a ha hn
    have := evaluationsOf_name h _ a ha
    rw [hn] at this
    exact scriptEntries_not_ratJs _ this
  refine ⟨hpre.1, hpre.2, ?_, ?_⟩
  · intro pre e post hsplit he
    exact marked_is_last (fun e => e.name = "rat.js") _ _ _ pre post e hA
      (evaluationsOf_single_length h "rat.js") hpre.1 hsplit he
  · have h1 := (hpre.1.filter (fun e => decide (e.name = "rat.js"))).length_le
    have h2 : (fullLoad h).filter (fun e => decide (e.name = "rat.js"))
        = (evaluationsOf h ["rat.js"]).filter (fun e => decide (e.name = "rat.js")) := by
      unfold fullLoad
      rw [List.filter_append]
      have : (evaluationsOf h (scriptEntries (listing h))).filter
          (fun e => decide (e.name = "rat.js")) = [] := by
        rw [List.filter_eq_nil_iff]
        intro a ha
        simpa using hA a ha
      rw [this, List.nil_append]
    rw [h2] at h1
    exact h1.trans ((List.length_filter_le _ _).trans (evaluationsOf_single_length h "rat.js"))

/-- `loadJavascript_order` on a directory holding `a.js`, `b.js` and `rat.js`: the three
are evaluated in that order, `rat.js` last. -/
theorem loadJavascript_order_witness :
    (loadJavascript dirWithRatJs ()).panicked = none ∧
    (loadJavascript dirWithRatJs ()).evaluated.map (fun e => e.name)
      = ["a.js", "b.js", "rat.js"] :=
  have h := (loadJavascript_order dirWithRatJs ()).2.1 (by decide)
  ⟨by decide, by rw [h]; decide⟩

/-! ## Layout -/

theorem wrapInt_of_isGoInt (z : Int) (hz : IsGoInt z) : wrapInt z = z := by
  unfold IsGoInt at hz
  unfold wrapInt
  omega

theorem WidgetStack.SetBox_box {α : Type} (ws : List (Widget α)) (b : Box) :
    ∀ wd ∈ WidgetStack.SetBox ws b, wd.box = b := by
  intro wd hwd
  simp only [WidgetStack.SetBox, List.mem_map] at hwd
  obtain ⟨w0, _, rfl⟩ := hwd
  rfl

theorem WidgetStack.SetBox_idem {α : Type} (ws : List (Widget α)) (b : Box) :
    WidgetStack.SetBox (WidgetStack.SetBox ws b) b = WidgetStack.SetBox ws b := by
  simp [WidgetStack.SetBox]

/-- Claim C10: for a Go `int` height `h`, `layout(w, h)` gives every widget of the stack
the box `NewBox(0, 0, w, h-1)` and the Prompt the box `NewBox(0, h-1, w, 1)`, whatever the
state before, and changes nothing else of the widgets (`h-1` is the exact difference
unless `h` is the least `int`).  For `h ≥ 1` a screen cell lies on the `w`-by-`h` terminal
exactly when it lies in one of the two boxes, and no cell lies in both.  A second
`layout`, or a second resize event, with the same dimensions changes nothing. -/
theorem layout_regions {α ρ : Type} (w h : Int) (s : Screen α ρ) (hh : IsGoInt h) :
    (∀ wd ∈ (layout w h s).widgets, wd.box = NewBox 0 0 w (wrapInt (h - 1))) ∧
    (layout w h s).gPromptBox = NewBox 0 (wrapInt (h - 1)) w 1 ∧
    ((layout w h s).widgets.map (fun wd => wd.impl) = s.widgets.map (fun wd => wd.impl)) ∧
    (layout w h s).gPrompt = s.gPrompt ∧
    (-(2 ^ 63) < h → wrapInt (h - 1) = h - 1) ∧
    (1 ≤ h → ∀ x y : Int,
      (OnTerminal w h x y ↔
        (NewBox 0 0 w (wrapInt (h - 1))).Covers x y ∨ (layout w h s).gPromptBox.Covers x y) ∧
      ¬ ((NewBox 0 0 w (wrapInt (h - 1))).Covers x y ∧
          (layout w h s).gPromptBox.Covers x y)) ∧
    layout w h (layout w h s) = layout w h s ∧
    resizeBranch w h (resizeBranch w h s) = resizeBranch w h s := by
  have hwrap : -(2 ^ 63) < h → wrapInt (h - 1) = h - 1 := by
    intro hlo
    apply wrapInt_of_isGoInt
    unfold IsGoInt at hh ⊢
    omega
  have hidem : layout w h (layout w h s) = layout w h s := by
    simp [layout, WidgetStack.SetBox_idem]
  refine ⟨?_, rfl, ?_, rfl, hwrap, ?_, hidem, hidem⟩
  · exact WidgetStack.SetBox_box _ _
  · simp [layout, WidgetStack.SetBox]
  · intro h1 x y
    have hw1 := hwrap (by omega)
    simp only [layout, NewBox, Box.Covers, OnTerminal, hw1]
    constructor
    · constructor
      · intro hx
        by_cases hy : y < h - 1
        · left; omega
        · right; omega
      · intro hx
        rcases hx with hx | hx <;> omega
    · intro hx
      omega

/-- `layout_regions` for an 80-by-24 terminal: the widgets get rows 0 to 22, the Prompt
row 23. -/
theorem layout_regions_witness :
    IsGoInt 24 ∧
    (layout 80 24 freshScreen).gPromptBox = NewBox 0 23 80 1 ∧
    (∀ wd ∈ (layout 80 24 freshScreen).widgets, wd.box = NewBox 0 0 80 23) ∧
    layout 80 24 (layout 80 24 freshScreen) = layout 80 24 freshScreen :=
  have h24 : IsGoInt 24 := by unfold IsGoInt; omega
  have h := layout_regions 80 24 freshScreen h24
  have hw : wrapInt (24 - 1) = 23 := by rw [h.2.2.2.2.1 (by omega)]; rfl
  ⟨h24, by rw [h.2.1, hw], fun wd hwd => by rw [h.1 wd hwd, hw], h.2.2.2.2.2.2.1⟩

end RatLib
